import Mathlib

/-
Verification development for the subsai repository (command line interface
and the WhisperTimeStamped model wrapper).

Shallow embedding notes:
  * Python strings are Lean String values; file paths are plain strings and
    path operations (absolutize, parent, stem) are modelled without the
    normalization pathlib performs on repeated or trailing slashes, which no
    claim depends on.
  * The file system, file existence and the json module are collaborators
    supplied through an Env record, so theorems quantify over them.
  * Stateful pipeline behaviour (model construction, transcription,
    translation, export) is modelled as a trace of events produced by the
    run function, mirroring src/subsai/cli.py line by line.
-/

namespace Subsai

/-- Model of pathlib.Path(p).absolute(): a relative path is resolved against
the current working directory, an absolute path is kept.  Python returns the
cwd itself for the empty string. -/
def absolutize (cwd p : String) : String :=
  match p.data with
  | [] => cwd
  | c :: _ => if c = '/' then p else cwd ++ "/" ++ p

/-- Helper for readlines: splits a character stream after every newline,
keeping each newline character, as Python file.readlines() does. -/
def readlinesAux : List Char → List Char → List String
  | [], [] => []
  | [], acc => [String.mk acc.reverse]
  | c :: rest, acc =>
    if c = '\n' then String.mk (acc.reverse ++ ['\n']) :: readlinesAux rest []
    else readlinesAux rest (c :: acc)

/-- Model of Python file.readlines(): every line keeps its trailing newline;
a final line without a newline is still returned. -/
def readlines (s : String) : List String :=
  readlinesAux s.data []

/-- Model of Python str.endswith. -/
def strEndsWith (s suffix : String) : Bool :=
  suffix.data.reverse.isPrefixOf s.data.reverse

/-- Splits a character list on a separator character; the separator is
dropped and empty components are kept, like Python str.split with one
character. -/
def splitOnChar (sep : Char) : List Char → List (List Char)
  | [] => [[]]
  | x :: xs =>
    let r := splitOnChar sep xs
    if x = sep then [] :: r
    else
      match r with
      | [] => [[x]]
      | y :: ys => (x :: y) :: ys

/-- Joins path components back with slashes. -/
def joinSlash : List (List Char) → List Char
  | [] => []
  | [x] => x
  | x :: xs => x ++ '/' :: joinSlash xs

/-- Model of pathlib.Path(p).parent for the paths the cli produces: drop the
final path component; the parent of a single component is "." and the parent
of a top level entry is "/". -/
def pathParent (p : String) : String :=
  let parts := splitOnChar '/' p.data
  let start := parts.dropLast
  if start = [] then "."
  else if start = [[]] then "/"
  else String.mk (joinSlash start)

/-- The final path component, as a character list. -/
def lastComponent (p : String) : List Char :=
  (splitOnChar '/' p.data).getLastD []

/-- Model of pathlib stem on a file name: the name without its last
extension; a name whose only dot is the leading character keeps the dot. -/
def stemOfName (name : List Char) : List Char :=
  let ext := (name.reverse.takeWhile (fun c => c ≠ '.')).length
  if ext = name.length then name
  else
    let stem := name.take (name.length - ext - 1)
    if stem = [] then name else stem

/-- Model of pathlib.Path(p).stem. -/
def pathStem (p : String) : String :=
  String.mk (stemOfName (lastComponent p))

/-- ASCII whitespace recognised by the model of Python str.strip. -/
def isSpaceChar (c : Char) : Bool :=
  c = ' ' || c = '\t' || c = '\n' || c = '\r' || c = '\x0b' || c = '\x0c'

/-- Model of Python str.strip(): removes leading and trailing whitespace. -/
def stripStr (s : String) : String :=
  String.mk (((s.data.dropWhile isSpaceChar).reverse.dropWhile isSpaceChar).reverse)

/-- Configuration values: the value kinds named by the schema entries of
WhisperTimeStamped.config_schema (strings, numbers, booleans, tuples of
numbers, None).  Numeric values are rationals, covering the float defaults
of the schema. -/
inductive CVal where
  | vStr (s : String)
  | vNum (q : ℚ)
  | vBool (b : Bool)
  | vTup (l : List ℚ)
  | vNone
  deriving DecidableEq

/-- The value kinds a schema entry may declare. -/
inductive CKind where
  | kStr
  | kNum
  | kBool
  | kTuple
  | kOneOf
  deriving DecidableEq

/-- One entry of a config schema: kind, optional allowed values, default. -/
structure SchemaEntry where
  kind : CKind
  options : Option (List CVal)
  default : CVal
  deriving DecidableEq

/-- A config schema is an ordered mapping from option names to entries,
modelling the Python dict WhisperTimeStamped.config_schema. -/
abbrev Schema := List (String × SchemaEntry)

/-- A user configuration: an ordered mapping from option names to values. -/
abbrev Cfg := List (String × CVal)

/-- The keys of an ordered mapping, in order. -/
def keysOf {α : Type} (l : List (String × α)) : List String :=
  l.map Prod.fst

/-- First-match lookup in an ordered mapping, modelling Python dict access
(dict keys are unique, so first match is the match). -/
def lookupKey {α : Type} : List (String × α) → String → Option α
  | [], _ => none
  | kv :: rest, k => if kv.1 = k then some kv.2 else lookupKey rest k

/-- Errors of the configuration resolver named by the spec. -/
inductive ResolveError where
  | unknownOption
  | invalidOptionValue
  deriving DecidableEq

/-- Whether a value satisfies a declared value kind; None is accepted for
every kind since the schema uses None defaults for entries of every kind,
and one-of entries are checked through their allowed options instead. -/
def satisfiesKind : CKind → CVal → Bool
  | _, CVal.vNone => true
  | CKind.kStr, CVal.vStr _ => true
  | CKind.kNum, CVal.vNum _ => true
  | CKind.kBool, CVal.vBool _ => true
  | CKind.kTuple, CVal.vTup _ => true
  | CKind.kOneOf, _ => true
  | _, _ => false

/-- Membership test against the allowed options of an entry, when set. -/
def optionsOk : Option (List CVal) → CVal → Bool
  | none, _ => true
  | some opts, v => opts.contains v

/-- Modelled from the spec: subsai.utils._load_config is not under src/
(only its caller WhisperTimeStamped.__init__ is), so the per-option
resolver follows section 4.1 of the spec: fail with UnknownOptionError when
the asked option is not declared in the schema; when the option is present
in the user config its value must satisfy the declared kind and allowed
options, else InvalidOptionValueError; otherwise return the schema
default. -/
def loadConfig (name : String) (userConfig : Cfg) (schema : Schema) :
    Except ResolveError CVal :=
  match lookupKey schema name with
  | none => Except.error ResolveError.unknownOption
  | some entry =>
    match lookupKey userConfig name with
    | none => Except.ok entry.default
    | some v =>
      if satisfiesKind entry.kind v && optionsOk entry.options v then Except.ok v
      else Except.error ResolveError.invalidOptionValue

/-- Sequential resolution of a list of schema entries, mirroring the
sequence of _load_config calls in WhisperTimeStamped.__init__
(src/subsai/models/whisper_timestamped_model.py lines 218-232): each schema
key is resolved once, in schema order, failing fast at the first error. -/
def resolveEntries (schema : Schema) (userConfig : Cfg) :
    List (String × SchemaEntry) → Except ResolveError Cfg
  | [] => Except.ok []
  | ke :: rest =>
    match loadConfig ke.1 userConfig schema with
    | Except.error e => Except.error e
    | Except.ok v =>
      match resolveEntries schema userConfig rest with
      | Except.error e => Except.error e
      | Except.ok tail => Except.ok ((ke.1, v) :: tail)

/-- Modelled from the spec: full-configuration resolution.  The iteration
over every schema key comes from WhisperTimeStamped.__init__ (the ten named
attributes plus the decode_options comprehension cover the whole schema);
the rejection of user-config keys absent from the schema is the
UnknownOptionError requirement of spec sections 4.1 and 4.2, whose carrier
(subsai.utils) is not under src/. -/
def resolveFullConfig (schema : Schema) (userConfig : Cfg) :
    Except ResolveError Cfg :=
  if ∃ kv ∈ userConfig, kv.1 ∉ keysOf schema then
    Except.error ResolveError.unknownOption
  else
    resolveEntries schema userConfig schema

/-- Python-level errors the cli can hit while handling its arguments. -/
inductive PyError where
  | attributeError
  | fileNotFoundError
  | jsonDecodeError
  deriving DecidableEq

/-- The value reaching run for a configuration argument: either a string
from the command line or the argparse default, which is the Python dict
literal passed as default to add_argument (src/subsai/cli.py lines 129 and
142). -/
inductive CliConfigArg where
  | strArg (s : String)
  | dictDefault
  deriving DecidableEq

/-- The external collaborators of the cli: current working directory, file
contents for open(), file existence for Path.exists(), and the json module
(json.loads as a partial parsing function). -/
structure Env where
  cwd : String
  fs : String → Option String
  fileExists : String → Bool
  jsonLoads : String → Option Cfg

/-- Embedding of _handle_media_file (src/subsai/cli.py lines 50-60): an
argument ending in .txt is opened and every line of readlines() becomes
Path(line).absolute(); any other argument becomes Path(file).absolute().
Opening a missing list file raises FileNotFoundError. -/
def handleMediaFile (env : Env) : List String → Except PyError (List String)
  | [] => Except.ok []
  | file :: rest =>
    if strEndsWith file ".txt" then
      match env.fs file with
      | none => Except.error PyError.fileNotFoundError
      | some content =>
        match handleMediaFile env rest with
        | Except.error e => Except.error e
        | Except.ok tail =>
          Except.ok ((readlines content).map (absolutize env.cwd) ++ tail)
    else
      match handleMediaFile env rest with
      | Except.error e => Except.error e
      | Except.ok tail => Except.ok (absolutize env.cwd file :: tail)

/-- Embedding of _handle_model_configs (src/subsai/cli.py lines 63-68).
The argparse default for the flag is the dict literal, and a dict has no
endswith attribute, so the match raises AttributeError; a string argument
ending in .json is read from disk and json-parsed, any other string is
json-parsed directly. -/
def handleModelConfigs (env : Env) : CliConfigArg → Except PyError Cfg
  | CliConfigArg.dictDefault => Except.error PyError.attributeError
  | CliConfigArg.strArg s =>
    if strEndsWith s ".json" then
      match env.fs s with
      | none => Except.error PyError.fileNotFoundError
      | some data =>
        match env.jsonLoads data with
        | none => Except.error PyError.jsonDecodeError
        | some cfg => Except.ok cfg
    else
      match env.jsonLoads s with
      | none => Except.error PyError.jsonDecodeError
      | some cfg => Except.ok cfg

/-- The arguments of run (src/subsai/cli.py lines 71-80). -/
structure RunArgs where
  mediaFileArg : List String
  modelName : String
  modelConfigs : CliConfigArg
  destinationFolder : Option String
  subsFormat : String
  translationModel : Option String
  translationConfigs : CliConfigArg
  translationSourceLang : Option String
  translationTargetLang : Option String

/-- Observable actions of one cli run, in program order.  Events carry the
media file they originate from where the source loop does, so that per-file
claims can be stated on the trace. -/
inductive Event where
  | createModel (modelName : String) (cfg : Cfg)
  | processFile (file : String)
  | warnMissing (file : String)
  | transcribeEv (file : String)
  | mkdirEv (folder : String)
  | createTranslationModel (modelName : String)
  | translateEv (file : String) (cfgArg : CliConfigArg)
  | saveEv (file : String) (path : String)
  deriving DecidableEq

/-- Mutable state of the per-file loop in run: whether tr_model has been
constructed, and which destination folders os.makedirs has created. -/
structure LoopState where
  trBuilt : Bool
  created : List String

/-- The output path computed by run (src/subsai/cli.py lines 95-102):
destination folder (made absolute) joined with stem.format when a
destination folder is given, else the parent of the media file joined with
stem.format. -/
def outputPath (env : Env) (a : RunArgs) (file : String) : String :=
  match a.destinationFolder with
  | some d => absolutize env.cwd d ++ "/" ++ (pathStem file ++ "." ++ a.subsFormat)
  | none => pathParent file ++ "/" ++ (pathStem file ++ "." ++ a.subsFormat)

/-- Destination-folder handling per file (src/subsai/cli.py lines 95-99):
when a folder is given and does not exist yet, os.makedirs creates it. -/
def folderStep (env : Env) (a : RunArgs) (created : List String) :
    List Event × List String :=
  match a.destinationFolder with
  | some d =>
    if env.fileExists (absolutize env.cwd d) || created.contains (absolutize env.cwd d)
    then ([], created)
    else ([Event.mkdirEv (absolutize env.cwd d)], absolutize env.cwd d :: created)
  | none => ([], created)

/-- Translation handling per file (src/subsai/cli.py lines 103-112): only
when a translation model is requested; tr_model is constructed on first use
and reused afterwards; tools.translate receives translation_configs exactly
as run received it. -/
def translateStep (a : RunArgs) (trBuilt : Bool) (file : String) :
    List Event × Bool :=
  match a.translationModel with
  | some tm =>
    ((if trBuilt then [Event.translateEv file a.translationConfigs]
      else [Event.createTranslationModel tm,
            Event.translateEv file a.translationConfigs]), true)
  | none => ([], trBuilt)

/-- One iteration of the for loop of run (src/subsai/cli.py lines 89-114):
print the processing line; if the file does not exist, warn and continue;
else transcribe, compute the output path (creating the destination folder
if needed), optionally translate, and save. -/
def processOneFile (env : Env) (a : RunArgs) (st : LoopState) (file : String) :
    List Event × LoopState :=
  if env.fileExists file then
    ([Event.processFile file, Event.transcribeEv file] ++
       (folderStep env a st.created).1 ++ (translateStep a st.trBuilt file).1 ++
       [Event.saveEv file (outputPath env a file)],
     ⟨(translateStep a st.trBuilt file).2, (folderStep env a st.created).2⟩)
  else
    ([Event.processFile file, Event.warnMissing file], st)

/-- The for loop of run over the resolved files, threading the loop state. -/
def runLoop (env : Env) (a : RunArgs) : List String → LoopState → List Event
  | [], _ => []
  | f :: rest, st =>
    (processOneFile env a st f).1 ++ runLoop env a rest (processOneFile env a st f).2

/-- Embedding of run (src/subsai/cli.py lines 71-115): resolve the media
arguments, parse the model configuration, construct the transcription model
once, then process every file in order.  A raised error anywhere aborts the
run. -/
def run (env : Env) (a : RunArgs) : Except PyError (List Event) :=
  match handleMediaFile env a.mediaFileArg with
  | Except.error e => Except.error e
  | Except.ok files =>
    match handleModelConfigs env a.modelConfigs with
    | Except.error e => Except.error e
    | Except.ok cfg =>
      Except.ok (Event.createModel a.modelName cfg :: runLoop env a files ⟨false, []⟩)

/-- Extracts the file of a processing event. -/
def procFileOf : Event → Option String
  | Event.processFile f => some f
  | _ => none

/-- The files a trace processed, in trace order. -/
def processedFiles (tr : List Event) : List String :=
  tr.filterMap procFileOf

/-- Whether an event is a translation-model construction. -/
def isCreateTr : Event → Bool
  | Event.createTranslationModel _ => true
  | _ => false

/-- Whether an event is a transcription-model construction. -/
def isCreateModel : Event → Bool
  | Event.createModel _ _ => true
  | _ => false

/-- Number of translation-model constructions in a trace. -/
def countCreateTr (tr : List Event) : Nat :=
  tr.countP isCreateTr

/-- Number of transcription-model constructions in a trace. -/
def countCreateModel (tr : List Event) : Nat :=
  tr.countP isCreateModel

/-- A timed word of the whisper_timestamped result: start and end seconds
(floats, modelled as rationals) and the word text.  The end field is named
stop because end is a Lean keyword. -/
structure Word where
  start : ℚ
  stop : ℚ
  text : String
  deriving DecidableEq

/-- A segment of the whisper_timestamped result: its word list. -/
structure Segment where
  words : List Word
  deriving DecidableEq

/-- The whisper_timestamped.transcribe result: its segment list.  The
acoustic model producing it is an external collaborator. -/
structure TranscribeResult where
  segments : List Segment
  deriving DecidableEq

/-- Model of pysubs2.make_time(s=x): seconds to milliseconds, rounded to
the nearest integer. -/
def makeTime (s : ℚ) : ℤ :=
  round (s * 1000)

/-- A subtitle event: start and end milliseconds and plain text.  The end
field is named stop because end is a Lean keyword. -/
structure SSAEvent where
  start : ℤ
  stop : ℤ
  plaintext : String
  deriving DecidableEq

/-- The event built for one word in WhisperTimeStamped.transcribe
(src/subsai/models/whisper_timestamped_model.py lines 253-254):
SSAEvent(start=make_time(s=word[start]), end=make_time(s=word[end])) with
plaintext = word[text].strip(). -/
def wordEvent (w : Word) : SSAEvent :=
  ⟨makeTime w.start, makeTime w.stop, stripStr w.text⟩

/-- Embedding of the subtitle-building loop of WhisperTimeStamped.transcribe
(src/subsai/models/whisper_timestamped_model.py lines 250-256): starting
from an empty SSAFile, for each segment and each word of the segment an
event is appended. -/
def transcribe (results : TranscribeResult) : List SSAEvent :=
  results.segments.foldl
    (fun subs segment =>
      segment.words.foldl (fun acc word => acc ++ [wordEvent word]) subs)
    []

/-- A small parsed configuration used by the concrete scenarios below. -/
def demoCfg : Cfg :=
  [("language", CVal.vStr "en")]

/-- Collaborator environment for the concrete scenarios: cwd /w, the files
/w/a.mp4 and /w/b.mp4 exist, and the json module parses the literal MCRAW
to demoCfg. -/
def wEnv : Env where
  cwd := "/w"
  fs := fun _ => none
  fileExists := fun p => p == "/w/a.mp4" || p == "/w/b.mp4"
  jsonLoads := fun s => if s = "MCRAW" then some demoCfg else none

/-- Arguments of a plain run: three direct media arguments (the second
resolves to a missing file), a direct JSON model configuration, srt output,
no destination folder and no translation. -/
def demoArgs : RunArgs where
  mediaFileArg := ["a.mp4", "miss.mp4", "b.mp4"]
  modelName := "openai/whisper"
  modelConfigs := CliConfigArg.strArg "MCRAW"
  destinationFolder := none
  subsFormat := "srt"
  translationModel := none
  translationConfigs := CliConfigArg.dictDefault
  translationSourceLang := none
  translationTargetLang := none

/-- The resolved file list of demoArgs under wEnv. -/
def demoFiles : List String :=
  ["/w/a.mp4", "/w/miss.mp4", "/w/b.mp4"]

/-- The trace run produces for demoArgs under wEnv. -/
def demoTrace : List Event :=
  [Event.createModel "openai/whisper" demoCfg,
   Event.processFile "/w/a.mp4", Event.transcribeEv "/w/a.mp4",
   Event.saveEv "/w/a.mp4" "/w/a.srt",
   Event.processFile "/w/miss.mp4", Event.warnMissing "/w/miss.mp4",
   Event.processFile "/w/b.mp4", Event.transcribeEv "/w/b.mp4",
   Event.saveEv "/w/b.mp4" "/w/b.srt"]

/-- demoArgs with a translation model requested. -/
def trArgs : RunArgs :=
  { demoArgs with translationModel := some "facebook/m2m100_418M" }

/-- Environment for the batch-manifest scenario: list.txt holds one path
per line (with an empty middle line), and the listed files /w/a.mp4 and
/w/b.mp4 exist. -/
def c2Env : Env where
  cwd := "/w"
  fs := fun p => if p = "list.txt" then some "a.mp4\n\nb.mp4\n" else none
  fileExists := fun p => p == "/w/a.mp4" || p == "/w/b.mp4"
  jsonLoads := fun s => if s = "MCRAW" then some demoCfg else none

/-- demoArgs driven by the batch manifest list.txt. -/
def c2Args : RunArgs :=
  { demoArgs with mediaFileArg := ["list.txt"] }

/-- Environment for the configuration-parsing scenario: only /w/a.mp4
exists; the json module parses MCRAW; tc.json is not on disk. -/
def c3Env : Env where
  cwd := "/w"
  fs := fun _ => none
  fileExists := fun p => p == "/w/a.mp4"
  jsonLoads := fun s => if s = "MCRAW" then some demoCfg else none

/-- One media file, a direct model configuration, and a translation model
whose configuration argument is the string tc.json. -/
def c3Args : RunArgs where
  mediaFileArg := ["a.mp4"]
  modelName := "openai/whisper"
  modelConfigs := CliConfigArg.strArg "MCRAW"
  destinationFolder := none
  subsFormat := "srt"
  translationModel := some "facebook/m2m100_418M"
  translationConfigs := CliConfigArg.strArg "tc.json"
  translationSourceLang := some "en"
  translationTargetLang := some "fr"

/-- The trace run produces for c3Args under c3Env. -/
def c3Trace : List Event :=
  [Event.createModel "openai/whisper" demoCfg,
   Event.processFile "/w/a.mp4", Event.transcribeEv "/w/a.mp4",
   Event.createTranslationModel "facebook/m2m100_418M",
   Event.translateEv "/w/a.mp4" (CliConfigArg.strArg "tc.json"),
   Event.saveEv "/w/a.mp4" "/w/a.srt"]

/-- The two-key schema of the unknown-key example of spec section 8. -/
def c1Schema : Schema :=
  [("a", ⟨CKind.kNum, none, CVal.vNum 5⟩),
   ("b", ⟨CKind.kNum, none, CVal.vNum 6⟩)]

/-- The config of the unknown-key example: a is declared, c is not. -/
def c1Cfg : Cfg :=
  [("a", CVal.vNum 1), ("c", CVal.vNum 2)]

/-- A one-entry schema whose key a defaults to 5 (spec section 8). -/
def c6Schema : Schema :=
  [("a", ⟨CKind.kNum, none, CVal.vNum 5⟩)]

/-- The resolution of the empty config against c6Schema. -/
def c6Resolved : Cfg :=
  [("a", CVal.vNum 5)]

@[simp]
theorem keysOf_nil {α : Type} : keysOf ([] : List (String × α)) = [] := rfl

@[simp]
theorem keysOf_cons {α : Type} (kv : String × α) (l : List (String × α)) :
    keysOf (kv :: l) = kv.1 :: keysOf l := rfl

@[simp]
theorem lookupKey_nil {α : Type} (k : String) :
    lookupKey ([] : List (String × α)) k = none := rfl

theorem lookupKey_cons {α : Type} (kv : String × α) (l : List (String × α)) (k : String) :
    lookupKey (kv :: l) k = if kv.1 = k then some kv.2 else lookupKey l k := rfl

theorem mem_keysOf_of_lookupKey {α : Type} {l : List (String × α)} {k : String} {v : α}
    (h : lookupKey l k = some v) : k ∈ keysOf l := by
  induction l with
  | nil => simp at h
  | cons kv rest ih =>
    rw [lookupKey_cons] at h
    by_cases hk : kv.1 = k
    · simp [hk]
    · rw [if_neg hk] at h
      simp [ih h]

theorem lookupKey_eq_some_of_mem_keys {α : Type} {l : List (String × α)} {k : String}
    (h : k ∈ keysOf l) : ∃ v, lookupKey l k = some v := by
  induction l with
  | nil => simp at h
  | cons kv rest ih =>
    rw [lookupKey_cons]
    by_cases hk : kv.1 = k
    · exact ⟨kv.2, by rw [if_pos hk]⟩
    · rw [if_neg hk]
      apply ih
      rcases (List.mem_cons).mp (by simpa using h) with h1 | h1
      · exact absurd h1.symm hk
      · exact h1

theorem resolveEntries_keys {schema : Schema} {c : Cfg}
    {l : List (String × SchemaEntry)} {m : Cfg}
    (h : resolveEntries schema c l = Except.ok m) : keysOf m = keysOf l := by
  induction l generalizing m with
  | nil =>
    simp [resolveEntries] at h
    simp [h]
  | cons ke rest ih =>
    rw [resolveEntries] at h
    cases hl : loadConfig ke.1 c schema with
    | error e => rw [hl] at h; simp at h
    | ok v =>
      rw [hl] at h
      cases hr : resolveEntries schema c rest with
      | error e => rw [hr] at h; simp at h
      | ok tail =>
        rw [hr] at h
        simp only [Except.ok.injEq] at h
        rw [← h, keysOf_cons, keysOf_cons, ih hr]

theorem resolveEntries_lookup {schema : Schema} {c : Cfg}
    {l : List (String × SchemaEntry)} {m : Cfg}
    (h : resolveEntries schema c l = Except.ok m) :
    ∀ k v, lookupKey m k = some v → loadConfig k c schema = Except.ok v := by
  induction l generalizing m with
  | nil =>
    simp [resolveEntries] at h
    intro k v hkv
    rw [h] at hkv
    simp at hkv
  | cons ke rest ih =>
    rw [resolveEntries] at h
    cases hl : loadConfig ke.1 c schema with
    | error e => rw [hl] at h; simp at h
    | ok v0 =>
      rw [hl] at h
      cases hr : resolveEntries schema c rest with
      | error e => rw [hr] at h; simp at h
      | ok tail =>
        rw [hr] at h
        simp only [Except.ok.injEq] at h
        intro k v hkv
        rw [← h, lookupKey_cons] at hkv
        by_cases hk : ke.1 = k
        · rw [if_pos hk] at hkv
          simp only [Option.some.injEq] at hkv
          rw [← hk, ← hkv]
          exact hl
        · rw [if_neg hk] at hkv
          exact ih hr k v hkv

/-- Claim C1: resolving a user configuration against a schema fails with
UnknownOptionError whenever the configuration holds a key that the schema
does not declare, whatever the other keys and their values are; unknown
keys are never silently ignored. -/
theorem c1_unknown_keys_rejected (schema : Schema) (userConfig : Cfg)
    (h : ∃ kv ∈ userConfig, kv.1 ∉ keysOf schema) :
    resolveFullConfig schema userConfig = Except.error ResolveError.unknownOption := by
  rw [resolveFullConfig, if_pos h]

/-- Witness for C1 at the example of spec section 8: schema with keys a
and b, config with keys a and c. -/
theorem c1_unknown_keys_rejected_witness :
    resolveFullConfig c1Schema c1Cfg = Except.error ResolveError.unknownOption :=
  c1_unknown_keys_rejected c1Schema c1Cfg (by decide)

/-- Claim C6: full resolution either fails or returns a mapping whose key
set equals the key set of the schema, with every key absent from the user
configuration bound to its schema default; it never returns a mapping that
covers only part of the schema. -/
theorem c6_resolution_never_partial (schema : Schema) (userConfig m : Cfg)
    (h : resolveFullConfig schema userConfig = Except.ok m) :
    keysOf m = keysOf schema ∧
    ∀ k e, lookupKey schema k = some e → lookupKey userConfig k = none →
      lookupKey m k = some e.default := by
  rw [resolveFullConfig] at h
  split at h
  · simp at h
  · refine ⟨resolveEntries_keys h, ?_⟩
    intro k e hs hu
    have hk : k ∈ keysOf m := by
      rw [resolveEntries_keys h]
      exact mem_keysOf_of_lookupKey hs
    obtain ⟨v, hv⟩ := lookupKey_eq_some_of_mem_keys hk
    have hload := resolveEntries_lookup h k v hv
    rw [loadConfig, hs, hu] at hload
    simp only [Except.ok.injEq] at hload
    rw [hv, hload]

/-- Witness for C6 at the example of spec section 8: the empty config
against the one-entry schema with default 5 resolves key a to 5. -/
theorem c6_resolution_never_partial_witness :
    keysOf c6Resolved = keysOf c6Schema ∧
    lookupKey c6Resolved "a" = some (CVal.vNum 5) := by
  have h := c6_resolution_never_partial c6Schema [] c6Resolved rfl
  refine ⟨h.1, ?_⟩
  have h2 := h.2 "a" ⟨CKind.kNum, none, CVal.vNum 5⟩ rfl rfl
  simpa using h2

theorem folderStep_events (env : Env) (a : RunArgs) (cr : List String) :
    ∀ e ∈ (folderStep env a cr).1, ∃ fo, e = Event.mkdirEv fo := by
  intro e he
  cases hd : a.destinationFolder with
  | none => simp only [folderStep, hd] at he; simp at he
  | some d =>
    simp only [folderStep, hd] at he
    split at he
    · simp at he
    · simp at he
      exact ⟨_, he⟩

theorem translateStep_events (a : RunArgs) (b : Bool) (f : String) :
    ∀ e ∈ (translateStep a b f).1,
      (∃ tm, e = Event.createTranslationModel tm) ∨
        e = Event.translateEv f a.translationConfigs := by
  intro e he
  cases hd : a.translationModel with
  | none => simp only [translateStep, hd] at he; simp at he
  | some tm =>
    simp only [translateStep, hd] at he
    cases b with
    | true =>
      simp at he
      exact Or.inr he
    | false =>
      simp at he
      rcases he with he | he
      · exact Or.inl ⟨tm, he⟩
      · exact Or.inr he

theorem procFileOf_folderStep (env : Env) (a : RunArgs) (cr : List String) :
    List.filterMap procFileOf (folderStep env a cr).1 = [] := by
  rw [List.filterMap_eq_nil_iff]
  intro e he
  obtain ⟨fo, rfl⟩ := folderStep_events env a cr e he
  rfl

theorem procFileOf_translateStep (a : RunArgs) (b : Bool) (f : String) :
    List.filterMap procFileOf (translateStep a b f).1 = [] := by
  rw [List.filterMap_eq_nil_iff]
  intro e he
  rcases translateStep_events a b f e he with ⟨tm, rfl⟩ | rfl <;> rfl

theorem countCreateModel_folderStep (env : Env) (a : RunArgs) (cr : List String) :
    List.countP isCreateModel (folderStep env a cr).1 = 0 := by
  rw [List.countP_eq_zero]
  intro e he
  obtain ⟨fo, rfl⟩ := folderStep_events env a cr e he
  simp [isCreateModel]

theorem countCreateModel_translateStep (a : RunArgs) (b : Bool) (f : String) :
    List.countP isCreateModel (translateStep a b f).1 = 0 := by
  rw [List.countP_eq_zero]
  intro e he
  rcases translateStep_events a b f e he with ⟨tm, rfl⟩ | rfl <;> simp [isCreateModel]

theorem countCreateTr_folderStep (env : Env) (a : RunArgs) (cr : List String) :
    List.countP isCreateTr (folderStep env a cr).1 = 0 := by
  rw [List.countP_eq_zero]
  intro e he
  obtain ⟨fo, rfl⟩ := folderStep_events env a cr e he
  simp [isCreateTr]

theorem countCreateTr_translateStep (a : RunArgs) (b : Bool) (f : String) :
    List.countP isCreateTr (translateStep a b f).1 =
      if a.translationModel.isSome && !b then 1 else 0 := by
  unfold translateStep
  cases hd : a.translationModel with
  | none => simp
  | some tm => cases b <;> simp [isCreateTr]

theorem translateStep_state (a : RunArgs) (b : Bool) (f : String) :
    (translateStep a b f).2 = (b || a.translationModel.isSome) := by
  unfold translateStep
  cases hd : a.translationModel with
  | none => simp
  | some tm => simp

theorem processedFiles_processOneFile (env : Env) (a : RunArgs) (st : LoopState)
    (f : String) : processedFiles (processOneFile env a st f).1 = [f] := by
  unfold processOneFile
  cases hfe : env.fileExists f with
  | false =>
    simp [processedFiles, procFileOf]
  | true =>
    simp only [if_true]
    rw [processedFiles, List.filterMap_append, List.filterMap_append,
      List.filterMap_append, procFileOf_folderStep, procFileOf_translateStep]
    simp [procFileOf]

theorem countCreateModel_processOneFile (env : Env) (a : RunArgs) (st : LoopState)
    (f : String) : countCreateModel (processOneFile env a st f).1 = 0 := by
  unfold processOneFile
  cases hfe : env.fileExists f with
  | false => simp [countCreateModel, isCreateModel]
  | true =>
    simp only [if_true]
    rw [countCreateModel, List.countP_append, List.countP_append,
      List.countP_append, countCreateModel_folderStep, countCreateModel_translateStep]
    simp [isCreateModel]

theorem countCreateTr_processOneFile (env : Env) (a : RunArgs) (st : LoopState)
    (f : String) :
    countCreateTr (processOneFile env a st f).1 =
      if env.fileExists f && a.translationModel.isSome && !st.trBuilt then 1 else 0 := by
  unfold processOneFile
  cases hfe : env.fileExists f with
  | false => simp [countCreateTr, isCreateTr]
  | true =>
    simp only [if_true]
    rw [countCreateTr, List.countP_append, List.countP_append,
      List.countP_append, countCreateTr_folderStep, countCreateTr_translateStep]
    simp [isCreateTr]

theorem trBuilt_processOneFile (env : Env) (a : RunArgs) (st : LoopState)
    (f : String) :
    (processOneFile env a st f).2.trBuilt =
      (st.trBuilt || (env.fileExists f && a.translationModel.isSome)) := by
  unfold processOneFile
  cases hfe : env.fileExists f with
  | false => simp
  | true => simp [translateStep_state]

theorem processOneFile_fst_true {env : Env} {a : RunArgs} {st : LoopState}
    {g : String} (hfe : env.fileExists g = true) :
    (processOneFile env a st g).1 =
      [Event.processFile g, Event.transcribeEv g] ++
        (folderStep env a st.created).1 ++ (translateStep a st.trBuilt g).1 ++
        [Event.saveEv g (outputPath env a g)] := by
  unfold processOneFile
  rw [hfe]
  simp

theorem processOneFile_fst_false {env : Env} {a : RunArgs} {st : LoopState}
    {g : String} (hfe : env.fileExists g = false) :
    (processOneFile env a st g).1 =
      [Event.processFile g, Event.warnMissing g] := by
  unfold processOneFile
  rw [hfe]
  simp

theorem saveEv_mem_processOneFile {env : Env} {a : RunArgs} {st : LoopState}
    {g f p : String} (h : Event.saveEv f p ∈ (processOneFile env a st g).1) :
    f = g ∧ p = outputPath env a f ∧ env.fileExists f = true := by
  cases hfe : env.fileExists g with
  | false =>
    rw [processOneFile_fst_false hfe] at h
    simp at h
  | true =>
    rw [processOneFile_fst_true hfe] at h
    simp only [List.mem_append] at h
    rcases h with ((h | h) | h) | h
    · simp at h
    · obtain ⟨fo, hfo⟩ := folderStep_events env a st.created _ h
      simp at hfo
    · rcases translateStep_events a st.trBuilt g _ h with ⟨tm, htm⟩ | htm <;> simp at htm
    · simp only [List.mem_singleton, Event.saveEv.injEq] at h
      obtain ⟨h1, h2⟩ := h
      subst h1
      exact ⟨rfl, h2, hfe⟩

theorem transcribeEv_mem_processOneFile {env : Env} {a : RunArgs} {st : LoopState}
    {g f : String} (h : Event.transcribeEv f ∈ (processOneFile env a st g).1) :
    f = g ∧ env.fileExists f = true := by
  cases hfe : env.fileExists g with
  | false =>
    rw [processOneFile_fst_false hfe] at h
    simp at h
  | true =>
    rw [processOneFile_fst_true hfe] at h
    simp only [List.mem_append] at h
    rcases h with ((h | h) | h) | h
    · simp at h
      subst h
      exact ⟨rfl, hfe⟩
    · obtain ⟨fo, hfo⟩ := folderStep_events env a st.created _ h
      simp at hfo
    · rcases translateStep_events a st.trBuilt g _ h with ⟨tm, htm⟩ | htm <;> simp at htm
    · simp at h

theorem processOneFile_mem_of_exists {env : Env} {a : RunArgs} (st : LoopState)
    {g : String} (hfe : env.fileExists g = true) :
    Event.transcribeEv g ∈ (processOneFile env a st g).1 ∧
      Event.saveEv g (outputPath env a g) ∈ (processOneFile env a st g).1 := by
  unfold processOneFile
  rw [hfe]
  simp

theorem processOneFile_warn_of_missing {env : Env} {a : RunArgs} (st : LoopState)
    {g : String} (hfe : env.fileExists g = false) :
    Event.warnMissing g ∈ (processOneFile env a st g).1 := by
  unfold processOneFile
  rw [hfe]
  simp

theorem processedFiles_runLoop (env : Env) (a : RunArgs) (files : List String)
    (st : LoopState) : processedFiles (runLoop env a files st) = files := by
  induction files generalizing st with
  | nil => rfl
  | cons f rest ih =>
    rw [runLoop, processedFiles, List.filterMap_append]
    rw [show List.filterMap procFileOf (processOneFile env a st f).1 =
      processedFiles (processOneFile env a st f).1 from rfl]
    rw [processedFiles_processOneFile]
    rw [show List.filterMap procFileOf (runLoop env a rest (processOneFile env a st f).2) =
      processedFiles (runLoop env a rest (processOneFile env a st f).2) from rfl]
    rw [ih]
    rfl

theorem countCreateModel_runLoop (env : Env) (a : RunArgs) (files : List String)
    (st : LoopState) : countCreateModel (runLoop env a files st) = 0 := by
  induction files generalizing st with
  | nil => rfl
  | cons f rest ih =>
    rw [runLoop, countCreateModel, List.countP_append]
    rw [show List.countP isCreateModel (processOneFile env a st f).1 =
      countCreateModel (processOneFile env a st f).1 from rfl]
    rw [countCreateModel_processOneFile]
    rw [show List.countP isCreateModel (runLoop env a rest (processOneFile env a st f).2) =
      countCreateModel (runLoop env a rest (processOneFile env a st f).2) from rfl]
    rw [ih]

theorem countCreateTr_runLoop (env : Env) (a : RunArgs) (files : List String)
    (st : LoopState) :
    countCreateTr (runLoop env a files st) =
      if a.translationModel.isSome && !st.trBuilt && files.any env.fileExists
      then 1 else 0 := by
  induction files generalizing st with
  | nil => simp [runLoop, countCreateTr]
  | cons f rest ih =>
    rw [runLoop, countCreateTr, List.countP_append]
    rw [show List.countP isCreateTr (processOneFile env a st f).1 =
      countCreateTr (processOneFile env a st f).1 from rfl]
    rw [show List.countP isCreateTr (runLoop env a rest (processOneFile env a st f).2) =
      countCreateTr (runLoop env a rest (processOneFile env a st f).2) from rfl]
    rw [countCreateTr_processOneFile, ih, trBuilt_processOneFile, List.any_cons]
    cases hfe : env.fileExists f <;> cases hts : a.translationModel.isSome <;>
      cases htb : st.trBuilt <;> simp [hfe, hts, htb]

theorem saveEv_mem_runLoop {env : Env} {a : RunArgs} {files : List String}
    {st : LoopState} {f p : String}
    (h : Event.saveEv f p ∈ runLoop env a files st) :
    p = outputPath env a f ∧ env.fileExists f = true := by
  induction files generalizing st with
  | nil => simp [runLoop] at h
  | cons g rest ih =>
    rw [runLoop, List.mem_append] at h
    rcases h with h | h
    · obtain ⟨_, h2, h3⟩ := saveEv_mem_processOneFile h
      exact ⟨h2, h3⟩
    · exact ih h

theorem transcribeEv_mem_runLoop {env : Env} {a : RunArgs} {files : List String}
    {st : LoopState} {f : String}
    (h : Event.transcribeEv f ∈ runLoop env a files st) :
    env.fileExists f = true := by
  induction files generalizing st with
  | nil => simp [runLoop] at h
  | cons g rest ih =>
    rw [runLoop, List.mem_append] at h
    rcases h with h | h
    · exact (transcribeEv_mem_processOneFile h).2
    · exact ih h

theorem runLoop_mem_of_exists {env : Env} {a : RunArgs} {files : List String}
    (st : LoopState) {f : String} (hmem : f ∈ files)
    (hfe : env.fileExists f = true) :
    Event.transcribeEv f ∈ runLoop env a files st ∧
      Event.saveEv f (outputPath env a f) ∈ runLoop env a files st := by
  induction files generalizing st with
  | nil => simp at hmem
  | cons g rest ih =>
    rw [runLoop]
    rcases List.mem_cons.mp hmem with h | h
    · subst h
      obtain ⟨h1, h2⟩ := processOneFile_mem_of_exists st hfe
      exact ⟨List.mem_append.mpr (Or.inl h1), List.mem_append.mpr (Or.inl h2)⟩
    · obtain ⟨h1, h2⟩ := ih ((processOneFile env a st g).2) h
      exact ⟨List.mem_append.mpr (Or.inr h1), List.mem_append.mpr (Or.inr h2)⟩

theorem runLoop_warn_of_missing {env : Env} {a : RunArgs} {files : List String}
    (st : LoopState) {f : String} (hmem : f ∈ files)
    (hfe : env.fileExists f = false) :
    Event.warnMissing f ∈ runLoop env a files st := by
  induction files generalizing st with
  | nil => simp at hmem
  | cons g rest ih =>
    rw [runLoop]
    rcases List.mem_cons.mp hmem with h | h
    · subst h
      exact List.mem_append.mpr (Or.inl (processOneFile_warn_of_missing st hfe))
    · exact List.mem_append.mpr (Or.inr (ih ((processOneFile env a st g).2) h))

theorem run_eq {env : Env} {a : RunArgs} {files : List String} {cfg : Cfg}
    (hf : handleMediaFile env a.mediaFileArg = Except.ok files)
    (hc : handleModelConfigs env a.modelConfigs = Except.ok cfg) :
    run env a =
      Except.ok (Event.createModel a.modelName cfg ::
        runLoop env a files ⟨false, []⟩) := by
  rw [run, hf, hc]

theorem run_inv {env : Env} {a : RunArgs} {trace : List Event}
    (h : run env a = Except.ok trace) :
    ∃ files cfg, handleMediaFile env a.mediaFileArg = Except.ok files ∧
      handleModelConfigs env a.modelConfigs = Except.ok cfg ∧
      trace = Event.createModel a.modelName cfg :: runLoop env a files ⟨false, []⟩ := by
  rw [run] at h
  cases hf : handleMediaFile env a.mediaFileArg with
  | error e => rw [hf] at h; simp at h
  | ok files =>
    rw [hf] at h
    cases hc : handleModelConfigs env a.modelConfigs with
    | error e => rw [hc] at h; simp at h
    | ok cfg =>
      rw [hc] at h
      simp only [Except.ok.injEq] at h
      exact ⟨files, cfg, rfl, rfl, h.symm⟩

/-- Claim C4: over a whole run the translation backend is constructed
exactly once, at its first use, whenever a translation model is requested
and at least one resolved file exists (so the backend is used at all), and
it is never constructed when no translation model is requested: the number
of construction events equals one exactly when a model is requested and
some file exists, and zero otherwise. -/
theorem c4_translation_backend_constructed_once (env : Env) (a : RunArgs)
    (files : List String) (cfg : Cfg)
    (hf : handleMediaFile env a.mediaFileArg = Except.ok files)
    (hc : handleModelConfigs env a.modelConfigs = Except.ok cfg) :
    ∃ trace, run env a = Except.ok trace ∧
      countCreateTr trace =
        (if a.translationModel.isSome && files.any env.fileExists then 1 else 0) := by
  refine ⟨_, run_eq hf hc, ?_⟩
  rw [countCreateTr, List.countP_cons]
  rw [show List.countP isCreateTr (runLoop env a files ⟨false, []⟩) =
    countCreateTr (runLoop env a files ⟨false, []⟩) from rfl]
  rw [countCreateTr_runLoop]
  simp [isCreateTr]

/-- Witness for C4: a batch of two existing files with a translation model
requested constructs the translation backend exactly once. -/
theorem c4_translation_backend_constructed_once_witness :
    ∃ trace, run wEnv trArgs = Except.ok trace ∧
      countCreateTr trace =
        (if trArgs.translationModel.isSome &&
            demoFiles.any wEnv.fileExists then 1 else 0) :=
  c4_translation_backend_constructed_once wEnv trArgs demoFiles demoCfg rfl rfl

/-- Claim C5: a resolved file that does not exist draws a warning and is
skipped — it is neither transcribed nor exported — while every existing
file of the batch is still transcribed, and the run still finishes
successfully. -/
theorem c5_missing_file_skipped (env : Env) (a : RunArgs)
    (files : List String) (cfg : Cfg) (f : String)
    (hf : handleMediaFile env a.mediaFileArg = Except.ok files)
    (hc : handleModelConfigs env a.modelConfigs = Except.ok cfg)
    (hmem : f ∈ files) (hmiss : env.fileExists f = false) :
    ∃ trace, run env a = Except.ok trace ∧
      Event.warnMissing f ∈ trace ∧
      Event.transcribeEv f ∉ trace ∧
      (∀ p, Event.saveEv f p ∉ trace) ∧
      ∀ g ∈ files, env.fileExists g = true → Event.transcribeEv g ∈ trace := by
  refine ⟨_, run_eq hf hc, ?_, ?_, ?_, ?_⟩
  · exact List.mem_cons.mpr (Or.inr (runLoop_warn_of_missing _ hmem hmiss))
  · intro h
    rcases List.mem_cons.mp h with h | h
    · simp at h
    · rw [transcribeEv_mem_runLoop h] at hmiss
      simp at hmiss
  · intro p h
    rcases List.mem_cons.mp h with h | h
    · simp at h
    · rw [(saveEv_mem_runLoop h).2] at hmiss
      simp at hmiss
  · intro g hg hge
    exact List.mem_cons.mpr (Or.inr (runLoop_mem_of_exists _ hg hge).1)

/-- Witness for C5: in a batch of three resolved files whose second does
not exist, the second file is warned about and skipped while the first and
the third are transcribed, and the run succeeds. -/
theorem c5_missing_file_skipped_witness :
    ∃ trace, run wEnv demoArgs = Except.ok trace ∧
      Event.warnMissing "/w/miss.mp4" ∈ trace ∧
      Event.transcribeEv "/w/miss.mp4" ∉ trace ∧
      (∀ p, Event.saveEv "/w/miss.mp4" p ∉ trace) ∧
      ∀ g ∈ demoFiles, wEnv.fileExists g = true → Event.transcribeEv g ∈ trace :=
  c5_missing_file_skipped wEnv demoArgs demoFiles demoCfg "/w/miss.mp4"
    rfl rfl (by decide) rfl

/-- Claim C7: every export of a processed file targets exactly the output
path destination/stem.format when a destination folder is given and
parent/stem.format otherwise (outputPath), and every existing file of the
batch is exported to that path. -/
theorem c7_output_path_formula (env : Env) (a : RunArgs)
    (files : List String) (trace : List Event)
    (h : run env a = Except.ok trace)
    (hf : handleMediaFile env a.mediaFileArg = Except.ok files) :
    (∀ f ∈ files, env.fileExists f = true →
      Event.saveEv f (outputPath env a f) ∈ trace) ∧
    ∀ f p, Event.saveEv f p ∈ trace → p = outputPath env a f := by
  obtain ⟨files2, cfg, hf2, hc2, htr⟩ := run_inv h
  rw [hf] at hf2
  simp only [Except.ok.injEq] at hf2
  subst hf2
  subst htr
  constructor
  · intro f hmem hfe
    exact List.mem_cons.mpr (Or.inr (runLoop_mem_of_exists _ hmem hfe).2)
  · intro f p hp
    rcases List.mem_cons.mp hp with hp | hp
    · simp at hp
    · exact (saveEv_mem_runLoop hp).1

/-- Witness for C7: in the concrete run both existing files are saved at
parent/stem.srt, and every save event in the trace has that form. -/
theorem c7_output_path_formula_witness :
    (∀ f ∈ demoFiles, wEnv.fileExists f = true →
      Event.saveEv f (outputPath wEnv demoArgs f) ∈ demoTrace) ∧
    ∀ f p, Event.saveEv f p ∈ demoTrace → p = outputPath wEnv demoArgs f :=
  c7_output_path_formula wEnv demoArgs demoFiles demoTrace rfl rfl

/-- Claim C8: whenever the configuration argument parses, the transcription
backend is constructed exactly once per invocation — as the first event of
the trace, before any file is processed — with the requested model name and
the parsed configuration, and no other construction event occurs. -/
theorem c8_transcription_backend_constructed_first (env : Env) (a : RunArgs)
    (files : List String) (cfg : Cfg)
    (hf : handleMediaFile env a.mediaFileArg = Except.ok files)
    (hc : handleModelConfigs env a.modelConfigs = Except.ok cfg) :
    ∃ rest, run env a = Except.ok (Event.createModel a.modelName cfg :: rest) ∧
      countCreateModel rest = 0 := by
  refine ⟨runLoop env a files ⟨false, []⟩, run_eq hf hc, ?_⟩
  exact countCreateModel_runLoop env a files ⟨false, []⟩

/-- Witness for C8: the concrete run constructs the transcription backend
as its first event and never again. -/
theorem c8_transcription_backend_constructed_first_witness :
    ∃ rest, run wEnv demoArgs =
      Except.ok (Event.createModel demoArgs.modelName demoCfg :: rest) ∧
      countCreateModel rest = 0 :=
  c8_transcription_backend_constructed_first wEnv demoArgs demoFiles demoCfg rfl rfl

/-- Claim C9: the files of a successful run are processed exactly in the
order handleMediaFile resolved them — declaration order for direct
arguments and line order inside a batch list file — with no reordering. -/
theorem c9_files_processed_in_resolution_order (env : Env) (a : RunArgs)
    (trace : List Event) (h : run env a = Except.ok trace) :
    ∃ files, handleMediaFile env a.mediaFileArg = Except.ok files ∧
      processedFiles trace = files := by
  obtain ⟨files, cfg, hf, hc, htr⟩ := run_inv h
  refine ⟨files, hf, ?_⟩
  subst htr
  rw [processedFiles, List.filterMap_cons]
  rw [show procFileOf (Event.createModel a.modelName cfg) = none from rfl]
  exact processedFiles_runLoop env a files ⟨false, []⟩

/-- Witness for C9: the concrete run processes the three resolved files in
their resolution order. -/
theorem c9_files_processed_in_resolution_order_witness :
    ∃ files, handleMediaFile wEnv demoArgs.mediaFileArg = Except.ok files ∧
      processedFiles demoTrace = files :=
  c9_files_processed_in_resolution_order wEnv demoArgs demoTrace rfl

theorem foldl_snoc_eq_append_map {α β : Type} (g : α → β) (l : List α)
    (acc : List β) :
    l.foldl (fun s x => s ++ [g x]) acc = acc ++ l.map g := by
  induction l generalizing acc with
  | nil => simp
  | cons x xs ih => simp [ih]

theorem foldl_words_eq (segs : List Segment) (acc : List SSAEvent) :
    segs.foldl
      (fun subs segment =>
        segment.words.foldl (fun a w => a ++ [wordEvent w]) subs) acc =
      acc ++ (segs.flatMap Segment.words).map wordEvent := by
  induction segs generalizing acc with
  | nil => simp
  | cons s ss ih =>
    rw [List.foldl_cons, ih, foldl_snoc_eq_append_map]
    simp

/-- Claim C10: the subtitle document built by WhisperTimeStamped.transcribe
holds exactly one event per word of the backend result, in segment order
then word order, each event carrying the word text stripped of surrounding
whitespace and the word start and end seconds converted to subtitle times
by makeTime. -/
theorem c10_one_event_per_word (results : TranscribeResult) :
    transcribe results =
      (results.segments.flatMap Segment.words).map
        (fun w => ⟨makeTime w.start, makeTime w.stop, stripStr w.text⟩) := by
  rw [transcribe, foldl_words_eq]
  rfl

/-- Claim C2 is refuted by evaluation: the batch manifest handler keeps the
trailing newline of every line and turns the empty middle line into a
reference as well, instead of trimming trailing whitespace and dropping
empty lines; consequently a run over a manifest listing two existing files
resolves only nonexistent newline-bearing paths and warns and skips every
one of them. -/
theorem c2_batch_lines_kept_untrimmed :
    handleMediaFile c2Env ["list.txt"] =
      Except.ok ["/w/a.mp4\n", "/w/\n", "/w/b.mp4\n"] ∧
    run c2Env c2Args =
      Except.ok [Event.createModel "openai/whisper" demoCfg,
        Event.processFile "/w/a.mp4\n", Event.warnMissing "/w/a.mp4\n",
        Event.processFile "/w/\n", Event.warnMissing "/w/\n",
        Event.processFile "/w/b.mp4\n", Event.warnMissing "/w/b.mp4\n"] :=
  ⟨rfl, rfl⟩

/-- Claim C3 is refuted by evaluation: the argparse default for the model
configuration (the dict literal) reaches _handle_model_configs, which calls
endswith on it and so raises AttributeError instead of yielding a mapping;
and the translation configuration is never parsed at all — the run hands
the raw string tc.json to the translation step unchanged (the file is not
even read). -/
theorem c3_configs_not_parsed_uniformly :
    handleModelConfigs c3Env CliConfigArg.dictDefault =
      Except.error PyError.attributeError ∧
    run c3Env c3Args = Except.ok c3Trace ∧
    Event.translateEv "/w/a.mp4" (CliConfigArg.strArg "tc.json") ∈ c3Trace :=
  ⟨rfl, rfl, by decide⟩

end Subsai
